import Mathlib

/-!
Verification of the traffic-matching and expectation-evaluation core of the
logfire-censor tooling (src/analyze_flows.py, src/generate_report.py,
src/validate_logfire.py, src/demo.py), as a shallow embedding in Lean 4.

Byte strings are modelled as `List Nat`; Python text strings as Lean `String`.
Library calls that are external to the repository (gzip decompression, UTF-8
replacement decoding, the remote query client) are modelled as explicit
function parameters: the Python `bytes.decode(..., errors="replace")` call
never raises, so its model is a total function `List Nat → String`, and
`gzip.decompress` either succeeds or raises, so its model returns
`Option (List Nat)`.
-/

namespace LogfireCensor

/-- Model of Python `str.lower()` restricted to the ASCII casing the tool
relies on, applied characterwise, producing the character list the
searching code iterates over. -/
def lowerStr (s : String) : List Char :=
  s.toList.map Char.toLower

/-- `isPrefixList m t` decides whether the character list `m` is a prefix of
`t`; this is the single-position comparison step of CPython substring
search. -/
def isPrefixList : List Char → List Char → Bool
  | [], _ => true
  | _ :: _, [] => false
  | a :: as, b :: bs => a == b && isPrefixList as bs

/-- Model of Python `t.find(m)` on character lists: index of the first
occurrence of `m` in `t`, `none` when absent (Python returns `-1`).
Used by `extract_snippet` in src/generate_report.py. -/
def findSub (m : List Char) : List Char → Option Nat
  | [] => if isPrefixList m [] then some 0 else none
  | c :: ts =>
    if isPrefixList m (c :: ts) then some 0
    else (findSub m ts).map (fun i => i + 1)

/-- Model of the Python `m in t` containment operator on character lists:
some alignment of `m` inside `t` matches.  Used by the search in
src/analyze_flows.py line 70/78 and src/generate_report.py line 69. -/
def pyIn (m t : List Char) : Bool :=
  (List.range (t.length + 1)).any (fun i => isPrefixList m (t.drop i))

/-- The matcher of src/analyze_flows.py lines 68-70: case-insensitive
containment, `search_string.lower() in content.lower()`. -/
def matchedIn (text marker : String) : Bool :=
  pyIn (lowerStr marker) (lowerStr text)

/-- `extract_snippet` from src/generate_report.py lines 37-44:
find the first case-insensitive occurrence, then slice
`body[max(0, idx-context) : min(len(body), idx+len(search)+context)]`;
empty when the marker is absent.  Python's `max(0, idx-context)` is `Nat`
truncated subtraction here. -/
def extract_snippet (body search : String) (context : Nat) : List Char :=
  match findSub (lowerStr search) (lowerStr body) with
  | none => []
  | some idx =>
    let start := idx - context
    let stop := min body.toList.length (idx + search.toList.length + context)
    (body.toList.drop start).take (stop - start)

/-- `decompress_body` from src/generate_report.py lines 24-34: empty bytes
give the empty string; otherwise gzip decompression is attempted and its
output decoded, and on decompression failure the raw bytes are decoded
directly.  `decode` models `bytes.decode("utf-8", errors="replace")`, which
is total, so the source's innermost `except: return ""` branch is
unreachable. -/
def decompress_body (gunzip : List Nat → Option (List Nat))
    (decode : List Nat → String) (content : List Nat) : String :=
  if content.isEmpty then ""
  else
    match gunzip content with
    | some plain => decode plain
    | none => decode content

/-- Tail of `main` in src/analyze_flows.py (lines 125-131 and 152-165):
flag validation then the expectation verdict, as the process exit code.
`.error` is a `sys.exit` before analysis, `.ok` the returned verdict code. -/
def analyze_expect_exit (expectFound expectNotFound found : Bool) :
    Except Nat Nat :=
  if expectFound && expectNotFound then .error 2
  else if !expectFound && !expectNotFound then .error 2
  else if expectFound then .ok (if found then 0 else 1)
  else .ok (if !found then 0 else 1)

/-- Tail of `main` in src/validate_logfire.py lines 154-175: the argparse
group guarantees exactly one expectation flag, modelled as the Bool
`expectFound`; returns the process exit code. -/
def validate_expect_exit (expectFound found : Bool) : Nat :=
  if expectFound then (if found then 0 else 1)
  else (if !found then 0 else 1)

/-- A captured HTTP response: content bytes and status code
(`flow.response.content`, `flow.response.status_code`). -/
structure Resp where
  content : List Nat
  status : Nat

/-- One captured HTTP exchange, the fields of `mitmproxy.http.HTTPFlow`
that the repository reads. -/
structure Flow where
  host : String
  method : String
  url : String
  requestContent : List Nat
  response : Option Resp

/-- One entry yielded by `FlowReader.stream()`: either an `HTTPFlow` or a
non-HTTP entry, which every loop skips with `isinstance` before counting. -/
inductive CapturedEntry
  | http (f : Flow)
  | other

/-- A match record appended by src/analyze_flows.py lines 71-83: the
request-side dict carries url and method, the response-side dict carries
url and the (optional) status code. -/
inductive MatchEntry
  | request (url method : String)
  | response (url : String) (status : Option Nat)
deriving DecidableEq

/-- The `results` dict built by `analyze_flows` in src/analyze_flows.py
lines 28-33. -/
structure Report where
  total_flows : Nat
  logfire_flows : Nat
  «matches» : List MatchEntry
  found : Bool
deriving DecidableEq

/-- Initial `results` value of src/analyze_flows.py lines 28-33. -/
def initReport : Report :=
  { total_flows := 0, logfire_flows := 0, «matches» := [], found := false }

/-- Request body text per src/analyze_flows.py lines 52-57: empty (falsy)
bytes leave the text empty, otherwise UTF-8 replacement decoding (total,
so the `except` is unreachable). -/
def requestText (decode : List Nat → String) (f : Flow) : String :=
  if f.requestContent.isEmpty then "" else decode f.requestContent

/-- Response body text per src/analyze_flows.py lines 60-65: absent
response or empty content leaves the text empty. -/
def responseText (decode : List Nat → String) (f : Flow) : String :=
  match f.response with
  | none => ""
  | some r => if r.content.isEmpty then "" else decode r.content

/-- Loop body of `analyze_flows` (src/analyze_flows.py lines 38-84) for a
single streamed entry, threading the `results` accumulator. -/
def processEntry (decode : List Nat → String) (ss : String)
    (logfireOnly : Bool) (r : Report) (e : CapturedEntry) : Report :=
  match e with
  | .other => r
  | .http f =>
    let r := { r with total_flows := r.total_flows + 1 }
    if logfireOnly && !(pyIn (lowerStr "logfire") (lowerStr f.host)) then r
    else
      let r := { r with logfire_flows := r.logfire_flows + 1 }
      let r :=
        if matchedIn (requestText decode f) ss then
          { r with «matches» := r.«matches» ++ [.request f.url f.method],
                   found := true }
        else r
      if matchedIn (responseText decode f) ss then
        { r with «matches» := r.«matches» ++ [.response f.url (f.response.map Resp.status)],
                 found := true }
      else r

/-- `analyze_flows` over an already-streamed list of entries. -/
def analyzeList (decode : List Nat → String) (ss : String)
    (logfireOnly : Bool) (es : List CapturedEntry) : Report :=
  es.foldl (processEntry decode ss logfireOnly) initReport

/-- What opening the capture store can yield at a given path: missing
(`FileNotFoundError`), unparsable framing (any other exception from
`FlowReader`), or a streamed list of entries. -/
inductive CaptureSource
  | missing
  | corrupt
  | ok (entries : List CapturedEntry)

/-- `analyze_flows` of src/analyze_flows.py lines 22-93 including its error
handling: `FileNotFoundError` and any read failure call `sys.exit(2)`
(lines 86-91), modelled as `.error 2`; otherwise the finished report. -/
def analyze_flows (decode : List Nat → String) (src : CaptureSource)
    (ss : String) (logfireOnly : Bool) : Except Nat Report :=
  match src with
  | .missing => .error 2
  | .corrupt => .error 2
  | .ok es => .ok (analyzeList decode ss logfireOnly es)

/-- One row of the `results` list built by `analyze_flow_file` in
src/generate_report.py lines 72-78. -/
structure RowInfo where
  url : String
  method : String
  content_length : Nat
  found : Bool
  snippet : List Char
deriving DecidableEq

/-- The test marker of src/generate_report.py line 21. -/
def TEST_STRING : String := "In 2 sentences what is the Bill of Rights?"

/-- Per-flow row of `analyze_flow_file` (src/generate_report.py lines
56-78): skip non-HTTP entries, non-logfire hosts and non-POST methods;
decompress the request body, search, extract a snippet when found. -/
def rowOf (gunzip : List Nat → Option (List Nat))
    (decode : List Nat → String) (e : CapturedEntry) : List RowInfo :=
  match e with
  | .other => []
  | .http f =>
    if !(pyIn (lowerStr "logfire") (lowerStr f.host)) then []
    else if f.method ≠ "POST" then []
    else
      let body := decompress_body gunzip decode f.requestContent
      let fnd := pyIn (lowerStr TEST_STRING) (lowerStr body)
      let snip := if fnd then extract_snippet body TEST_STRING 150 else []
      [{ url := f.url, method := f.method,
         content_length := f.requestContent.length,
         found := fnd, snippet := snip }]

/-- `analyze_flow_file` of src/generate_report.py lines 47-80: a missing
store returns the empty list (line 51-52, no abort); a framing failure has
no handler, so the exception escapes `main` and CPython exits with code 1,
modelled as `.error 1`. -/
def analyze_flow_file (gunzip : List Nat → Option (List Nat))
    (decode : List Nat → String) (src : CaptureSource) :
    Except Nat (List RowInfo) :=
  match src with
  | .missing => .ok []
  | .corrupt => .error 1
  | .ok es => .ok (es.foldr (fun e acc => rowOf gunzip decode e ++ acc) [])

/-- `main` of src/generate_report.py lines 212-225: analyze both capture
files, then unconditionally render and write BEFORE.md and AFTER.md.
`.ok` means both reports were written and the process exits 0. -/
def generate_report_run (gunzip : List Nat → Option (List Nat))
    (decode : List Nat → String) (before after : CaptureSource) :
    Except Nat (List RowInfo × List RowInfo) := do
  let b ← analyze_flow_file gunzip decode before
  let a ← analyze_flow_file gunzip decode after
  return (b, a)

/-- The dict returned by `query_logfire_for_string` in
src/validate_logfire.py lines 35-82: whether the marker was found, the row
count, and up to five sample rows. -/
structure QueryResult where
  found : Bool
  count : Nat
  details : List (Option String × Option String × Option String)
deriving DecidableEq

/-- Outcome of running an entry-point `main`: a normal process exit with a
code, or an unhandled Python exception escaping `main` (CPython then exits
with code 1, but the two are distinguishable to the operator). -/
inductive RunOutcome
  | exited (code : Nat)
  | raised (msg : String)
deriving DecidableEq

/-- The retry loop of src/validate_logfire.py lines 132-145, starting at
attempt index `i` with `fuel` iterations left (`i + fuel = retry`) and
`last` the `result` variable so far.  After each poll: `expect_found` with
a positive result breaks; `expect_not_found` with a negative result on the
final attempt breaks; otherwise the loop continues (the `time.sleep(5)`
between attempts has no observable effect here).  Returns the final
`result` variable together with the number of polls issued. -/
def pollGo (expectFound : Bool) (polls : Nat → QueryResult) :
    Nat → Nat → Option QueryResult → Option QueryResult × Nat
  | i, 0, last => (last, i)
  | i, fuel + 1, _ =>
    let r := polls i
    if expectFound && r.found then (some r, i + 1)
    else if !expectFound && !r.found && fuel == 0 then (some r, i + 1)
    else pollGo expectFound polls (i + 1) fuel (some r)

/-- The whole retry loop of src/validate_logfire.py lines 132-145 for a
nonnegative attempt count `n` (`range(n)`), from `result = None`. -/
def pollLoopN (expectFound : Bool) (n : Nat) (polls : Nat → QueryResult) :
    Option QueryResult × Nat :=
  pollGo expectFound polls 0 n none

/-- `main` of src/validate_logfire.py lines 89-175: missing or empty
`LOGFIRE_READ_TOKEN` is `sys.exit(1)` at line 126 before any query; then
the retry loop runs `range(retry)` iterations (negative counts give an
empty range); if no attempt ever ran, `result` is still `None` and
`result["found"]` at line 156 raises `TypeError`; otherwise the verdict of
the final result decides the exit code.  `polls` models successive calls
of `query_logfire_for_string`. -/
def validate_main (token : Option String) (expectFound : Bool)
    (retry : Int) (polls : Nat → QueryResult) : RunOutcome :=
  match token with
  | none => .exited 1
  | some t =>
    if t = "" then .exited 1
    else
      match (pollLoopN expectFound retry.toNat polls).1 with
      | none => .raised "TypeError"
      | some r => .exited (validate_expect_exit expectFound r.found)

/-- `main` of src/demo.py lines 85-120: a missing or empty `LOGFIRE_TOKEN`
or `GOOGLE_API_KEY` is `sys.exit(1)` (lines 98-103) before anything else
runs; otherwise the demo proceeds (its LLM and telemetry effects are
outside the verified core) and returns 0. -/
def demo_main (logfireToken googleKey : Option String) : RunOutcome :=
  if (logfireToken.getD "").isEmpty then .exited 1
  else if (googleKey.getD "").isEmpty then .exited 1
  else .exited 0

/-- Python slice `l[a:b]` for `0 ≤ a, b` on character lists (an empty list
when `b ≤ a`), used to state the snippet formula of §4.4 of the spec. -/
def pySlice (l : List Char) (a b : Nat) : List Char :=
  (l.drop a).take (b - a)

/-- The `isinstance(flow, HTTPFlow)` test every streaming loop performs. -/
def isHttp : CapturedEntry → Bool
  | .http _ => true
  | .other => false

/-- The match entries a single streamed entry contributes to the report of
`analyze_flows`: none for non-HTTP or filtered-out entries, otherwise the
request-side entry (evaluated first) followed by the response-side one. -/
def entryMatches (decode : List Nat → String) (ss : String) (lo : Bool) :
    CapturedEntry → List MatchEntry
  | .other => []
  | .http f =>
    if lo && !(pyIn (lowerStr "logfire") (lowerStr f.host)) then []
    else
      (if matchedIn (requestText decode f) ss then
        [MatchEntry.request f.url f.method] else []) ++
      (if matchedIn (responseText decode f) ss then
        [MatchEntry.response f.url (f.response.map Resp.status)] else [])

/-- The report invariants maintained by the aggregation loop. -/
def ReportInv (r : Report) : Prop :=
  r.logfire_flows ≤ r.total_flows ∧ (r.found = true ↔ r.«matches» ≠ [])

/-- The spec's snippet test text: 200 `A`s, then `SECRET`, then 200 `B`s. -/
def demoText : String :=
  String.mk (List.replicate 200 'A' ++ "SECRET".toList ++ List.replicate 200 'B')

/-- A poll result carrying only a found flag. -/
def qr (b : Bool) : QueryResult :=
  { found := b, count := 0, details := [] }

/-- The spec's poll sequence `[found, found, not-found]`. -/
def seqNF : Nat → QueryResult := fun i => qr (i != 2)

/-- The spec's poll sequence `[not-found, found, not-found]`. -/
def seqF : Nat → QueryResult := fun i => qr (i == 1)

/-- A poller that never finds the marker. -/
def constNoFind : Nat → QueryResult := fun _ => qr false

/-- A gzip model on which decompression always fails. -/
def gunzipNone : List Nat → Option (List Nat) := fun _ => none

/-- A gzip model that decompresses everything to the byte `7`. -/
def gunzipSeven : List Nat → Option (List Nat) := fun _ => some [7]

/-- A concrete total decoder distinguishing decompressed from raw input. -/
def decodeX : List Nat → String := fun l => if l = [7] then "seven" else "raw"

/-- A concrete in-scope captured flow with a response. -/
def flowA : Flow :=
  { host := "api.logfire.dev", method := "POST",
    url := "https://api.logfire.dev/v1/traces",
    requestContent := [66], response := some { content := [], status := 200 } }

/-- A concrete capture: an in-scope flow, a control message, and an
out-of-scope flow. -/
def entriesA : List CapturedEntry :=
  [.http flowA, .other, .http { flowA with host := "example.com" }]

theorem isPrefixList_cons_nil (a : Char) (as : List Char) :
    isPrefixList (a :: as) [] = false := rfl

/-- A non-empty string lowers to a non-empty character list. -/
theorem lowerStr_ne_nil (m : String) (hm : m ≠ "") : lowerStr m ≠ [] := by
  unfold lowerStr
  intro h
  apply hm
  rcases m with ⟨data⟩
  cases data with
  | nil => rfl
  | cons c cs => simp at h

/-- Unrolling the containment model one text position at a time. -/
theorem pyIn_cons (m : List Char) (c : Char) (ts : List Char) :
    pyIn m (c :: ts) = (isPrefixList m (c :: ts) || pyIn m ts) := by
  unfold pyIn
  rw [List.range_succ_eq_map, List.any_cons, List.any_map]
  rfl

/-- The find-based and the containment-based models of CPython substring
search agree: `t.find(m) != -1` exactly when `m in t`. -/
theorem findSub_isSome (m : List Char) :
    ∀ t, (findSub m t).isSome = pyIn m t := by
  intro t
  induction t with
  | nil =>
    cases h : isPrefixList m [] <;> simp [findSub, pyIn, h]
  | cons c ts ih =>
    rw [findSub]
    by_cases h : isPrefixList m (c :: ts) = true
    · simp only [h, if_true, Option.isSome_some, pyIn]
      symm
      rw [List.any_eq_true]
      exact ⟨0, by simp, h⟩
    · rw [Bool.not_eq_true] at h
      simp only [h, Bool.false_eq_true, if_false]
      have hmap : (Option.map (fun i => i + 1) (findSub m ts)).isSome =
          (findSub m ts).isSome := by
        cases findSub m ts <;> rfl
      rw [hmap, ih, pyIn_cons, h, Bool.false_or]

/-- For a non-empty pattern, the containment model is the existence of a
matching alignment. -/
theorem pyIn_iff_exists (m t : List Char) (hm : m ≠ []) :
    pyIn m t = true ↔ ∃ i, isPrefixList m (t.drop i) = true := by
  unfold pyIn
  rw [List.any_eq_true]
  constructor
  · rintro ⟨i, -, hp⟩
    exact ⟨i, hp⟩
  · rintro ⟨i, hp⟩
    by_cases hi : i < t.length + 1
    · exact ⟨i, List.mem_range.mpr hi, hp⟩
    · exfalso
      have hdrop : t.drop i = [] := List.drop_eq_nil_of_le (by omega)
      rw [hdrop] at hp
      cases m with
      | nil => exact hm rfl
      | cons a as => rw [isPrefixList_cons_nil] at hp; cases hp

/-- C4: for every text `t` and non-empty marker `m`, the matcher's outcome
is exactly case-insensitive substring containment,
`search(t, m).matched == (m.lower() in t.lower())`; it agrees with the
find-based search used for snippets, and it holds exactly when some
alignment of the lowered marker matches inside the lowered text.  The
matcher is a pure function of `(t, m)`, so determinism is inherent. -/
theorem matcher_containment (t m : String) (hm : m ≠ "") :
    matchedIn t m = pyIn (lowerStr m) (lowerStr t) ∧
    matchedIn t m = (findSub (lowerStr m) (lowerStr t)).isSome ∧
    (matchedIn t m = true ↔
      ∃ i, isPrefixList (lowerStr m) ((lowerStr t).drop i) = true) := by
  refine ⟨rfl, (findSub_isSome _ _).symm, ?_⟩
  exact pyIn_iff_exists _ _ (lowerStr_ne_nil m hm)

/-- Witness for C4 at a concrete matching input. -/
theorem matcher_containment_witness :
    ("SECRET" : String) ≠ "" ∧
    matchedIn "xxSeCrEtyy" "SECRET" =
      (findSub (lowerStr "SECRET") (lowerStr "xxSeCrEtyy")).isSome ∧
    matchedIn "xxSeCrEtyy" "SECRET" = true := by
  refine ⟨by decide,
          (matcher_containment "xxSeCrEtyy" "SECRET" (by decide)).2.1,
          by decide⟩

set_option maxRecDepth 20000 in
/-- C5: whenever the marker matches at first index `idx`, the snippet is
the slice `body[max(0, idx-context) : min(len(body), idx+len(marker)+context)]`;
its length never exceeds `2*context + len(marker)` (so it truncates at
either text boundary without error); the spec's example
`"A"*200 + "SECRET" + "B"*200` with context 150 gives a 306-character
snippet; a marker matching at the start truncates at the left boundary;
and a non-matching marker yields the empty snippet. -/
theorem snippet_extraction :
    (∀ (body m : String) (c idx : Nat),
        findSub (lowerStr m) (lowerStr body) = some idx →
        extract_snippet body m c =
          pySlice body.toList (idx - c)
            (min body.toList.length (idx + m.toList.length + c))) ∧
    (∀ (body m : String) (c : Nat),
        (extract_snippet body m c).length ≤ 2 * c + m.toList.length) ∧
    (∀ (body m : String) (c : Nat),
        findSub (lowerStr m) (lowerStr body) = none →
        extract_snippet body m c = []) ∧
    (extract_snippet demoText "SECRET" 150).length = 306 ∧
    extract_snippet "SECRETxyz" "secret" 150 = "SECRETxyz".toList := by
  refine ⟨?_, ?_, ?_, ?_, ?_⟩
  · intro body m c idx h
    unfold extract_snippet
    rw [h]
    rfl
  · intro body m c
    unfold extract_snippet
    cases h : findSub (lowerStr m) (lowerStr body) with
    | none => simp
    | some idx =>
      simp only
      rw [List.length_take]
      have h2 : min body.toList.length (idx + m.toList.length + c) ≤
          idx + m.toList.length + c := Nat.min_le_right _ _
      omega
  · intro body m c h
    unfold extract_snippet
    rw [h]
  · decide
  · decide

/-- Witness for C5, discharging each hypothesis at a concrete input. -/
theorem snippet_extraction_witness :
    extract_snippet "abc" "zzz" 5 = [] ∧
    extract_snippet "xxSeCrEtyy" "SECRET" 1 =
      pySlice "xxSeCrEtyy".toList (2 - 1)
        (min "xxSeCrEtyy".toList.length (2 + "SECRET".toList.length + 1)) ∧
    (extract_snippet "xxSeCrEtyy" "SECRET" 1).length ≤
      2 * 1 + "SECRET".toList.length := by
  refine ⟨snippet_extraction.2.2.1 "abc" "zzz" 5 (by decide),
          snippet_extraction.1 "xxSeCrEtyy" "SECRET" 1 2 (by decide),
          snippet_extraction.2.1 "xxSeCrEtyy" "SECRET" 1⟩

/-- C6: body extraction is total and follows the fallback chain exactly:
empty bytes yield the empty string; otherwise the gzip frame is tried
first and its output decoded; on decompression failure the raw bytes are
decoded directly (UTF-8 replacement decoding is itself total, so the
source's final `return ""` fallback is unreachable and no error ever
escapes). -/
theorem body_extraction_chain (gunzip : List Nat → Option (List Nat))
    (decode : List Nat → String) (b : List Nat) :
    (b = [] → decompress_body gunzip decode b = "") ∧
    (∀ d, b ≠ [] → gunzip b = some d →
        decompress_body gunzip decode b = decode d) ∧
    (b ≠ [] → gunzip b = none → decompress_body gunzip decode b = decode b) := by
  refine ⟨?_, ?_, ?_⟩
  · rintro rfl
    rfl
  · intro d hb hg
    unfold decompress_body
    rw [if_neg (by simpa using hb), hg]
  · intro hb hg
    unfold decompress_body
    rw [if_neg (by simpa using hb), hg]

/-- Witness for C6 exercising all three branches of the chain. -/
theorem body_extraction_chain_witness :
    decompress_body gunzipNone decodeX [] = "" ∧
    decompress_body gunzipSeven decodeX [1, 2] = decodeX [7] ∧
    decompress_body gunzipNone decodeX [1, 2] = decodeX [1, 2] := by
  refine ⟨(body_extraction_chain gunzipNone decodeX []).1 rfl,
          (body_extraction_chain gunzipSeven decodeX [1, 2]).2.1 [7]
            (by decide) rfl,
          (body_extraction_chain gunzipNone decodeX [1, 2]).2.2
            (by decide) rfl⟩

/-- C1: the expectation evaluator's truth table and exit-code mapping, in
both the offline analyzer (src/analyze_flows.py lines 152-165) and the
online validator (src/validate_logfire.py lines 154-175): ExpectFound with
found gives Pass/exit 0, ExpectFound without found gives Fail/exit 1,
ExpectNotFound without found gives Pass/exit 0, ExpectNotFound with found
gives Fail/exit 1. -/
theorem evaluator_truth_table :
    analyze_expect_exit true false true = .ok 0 ∧
    analyze_expect_exit true false false = .ok 1 ∧
    analyze_expect_exit false true false = .ok 0 ∧
    analyze_expect_exit false true true = .ok 1 ∧
    validate_expect_exit true true = 0 ∧
    validate_expect_exit true false = 1 ∧
    validate_expect_exit false false = 0 ∧
    validate_expect_exit false true = 1 :=
  ⟨rfl, rfl, rfl, rfl, rfl, rfl, rfl, rfl⟩

/-- C2 counterexample: with `LOGFIRE_READ_TOKEN` absent the online
validator exits with code 1, not 2 (src/validate_logfire.py line 126), and
the demo entry point likewise exits 1 on a missing `LOGFIRE_TOKEN`
(src/demo.py line 100). -/
theorem missing_credential_counterexample :
    validate_main none true 3 constNoFind = .exited 1 ∧
    validate_main none true 3 constNoFind ≠ .exited 2 ∧
    demo_main none (some "gkey") = .exited 1 ∧
    demo_main none (some "gkey") ≠ .exited 2 := by
  refine ⟨rfl, by decide, rfl, by decide⟩

/-- C2 as amended: when the required read credential is absent (or empty,
which Python's truthiness test also rejects), the online validator
terminates with exit code 1 before performing any I/O — the outcome is the
same for every poll function, and no Pass/Fail verdict is produced — and
the demo entry point likewise exits 1 when a required token is missing. -/
theorem missing_credential_exit_code (expectFound : Bool) (retry : Int)
    (polls : Nat → QueryResult) (g : Option String) :
    validate_main none expectFound retry polls = .exited 1 ∧
    validate_main (some "") expectFound retry polls = .exited 1 ∧
    demo_main none g = .exited 1 ∧
    demo_main (some "") g = .exited 1 := by
  refine ⟨rfl, by simp [validate_main], rfl, rfl⟩

/-- C7 counterexample: the report generator does not abort when the
capture store is missing — `analyze_flow_file` returns an empty result
list (src/generate_report.py lines 51-52) and `main` proceeds to write
both reports and exit 0, not 2. -/
theorem capture_missing_counterexample :
    generate_report_run gunzipNone decodeX .missing .missing = .ok ([], []) ∧
    generate_report_run gunzipNone decodeX .missing .missing ≠ .error 2 ∧
    analyze_flow_file gunzipNone decodeX .missing = .ok [] := by
  refine ⟨rfl, ?_, rfl⟩
  intro h
  rw [show generate_report_run gunzipNone decodeX .missing .missing =
        .ok ([], []) from rfl] at h
  cases h

/-- C7 as amended: the offline analyzer (src/analyze_flows.py lines 86-91)
aborts with exit code 2, producing no report, both when the capture store
is missing and when its framing cannot be parsed; the report generator
instead returns an empty result list for a missing store (and so still
writes its reports), and an unparsable store there escapes as an unhandled
exception terminating the process with code 1. -/
theorem capture_missing_amended (gunzip : List Nat → Option (List Nat))
    (decode : List Nat → String) (ss : String) (lo : Bool) :
    analyze_flows decode .missing ss lo = .error 2 ∧
    analyze_flows decode .corrupt ss lo = .error 2 ∧
    analyze_flow_file gunzip decode .missing = .ok [] ∧
    analyze_flow_file gunzip decode .corrupt = .error 1 :=
  ⟨rfl, rfl, rfl, rfl⟩

/-- One aggregation step appends exactly the entry's own matches, request
side first, at the end of the accumulated match list. -/
theorem processEntry_matches (decode : List Nat → String) (ss : String)
    (lo : Bool) (r : Report) (e : CapturedEntry) :
    (processEntry decode ss lo r e).«matches» =
      r.«matches» ++ entryMatches decode ss lo e := by
  cases e with
  | other => simp [processEntry, entryMatches]
  | http f =>
    unfold processEntry entryMatches
    cases hfil : (lo && !(pyIn (lowerStr "logfire") (lowerStr f.host))) <;>
      cases hreq : matchedIn (requestText decode f) ss <;>
        cases hresp : matchedIn (responseText decode f) ss <;>
          simp [hfil, hreq, hresp]

/-- One aggregation step counts every HTTP entry and only those. -/
theorem processEntry_total (decode : List Nat → String) (ss : String)
    (lo : Bool) (r : Report) (e : CapturedEntry) :
    (processEntry decode ss lo r e).total_flows =
      r.total_flows + (if isHttp e then 1 else 0) := by
  cases e with
  | other => simp [processEntry, isHttp]
  | http f =>
    unfold processEntry isHttp
    cases hfil : (lo && !(pyIn (lowerStr "logfire") (lowerStr f.host))) <;>
      cases hreq : matchedIn (requestText decode f) ss <;>
        cases hresp : matchedIn (responseText decode f) ss <;>
          simp [hfil, hreq, hresp]

/-- One aggregation step preserves the report invariants. -/
theorem processEntry_inv (decode : List Nat → String) (ss : String)
    (lo : Bool) (r : Report) (e : CapturedEntry) (h : ReportInv r) :
    ReportInv (processEntry decode ss lo r e) := by
  obtain ⟨h1, h2⟩ := h
  cases e with
  | other => exact ⟨h1, h2⟩
  | http f =>
    unfold processEntry
    unfold ReportInv
    cases hfil : (lo && !(pyIn (lowerStr "logfire") (lowerStr f.host))) <;>
      cases hreq : matchedIn (requestText decode f) ss <;>
        cases hresp : matchedIn (responseText decode f) ss <;>
          simp [hfil, hreq, hresp] <;>
            first
              | omega
              | exact ⟨by omega, by simpa using h2⟩

/-- With the host filter disabled every record is in scope. -/
theorem processEntry_allTraffic (decode : List Nat → String) (ss : String)
    (r : Report) (e : CapturedEntry)
    (h : r.logfire_flows = r.total_flows) :
    (processEntry decode ss false r e).logfire_flows =
      (processEntry decode ss false r e).total_flows := by
  cases e with
  | other => simpa [processEntry] using h
  | http f =>
    unfold processEntry
    cases hreq : matchedIn (requestText decode f) ss <;>
      cases hresp : matchedIn (responseText decode f) ss <;>
        simp [hreq, hresp, h]

/-- The aggregation fold preserves the report invariants. -/
theorem foldl_inv (decode : List Nat → String) (ss : String) (lo : Bool) :
    ∀ (es : List CapturedEntry) (r : Report), ReportInv r →
      ReportInv (es.foldl (processEntry decode ss lo) r) := by
  intro es
  induction es with
  | nil => intro r h; exact h
  | cons e es ih =>
    intro r h
    exact ih _ (processEntry_inv decode ss lo r e h)

/-- The aggregation fold keeps scoped and total counts equal when the
filter is disabled. -/
theorem foldl_allTraffic (decode : List Nat → String) (ss : String) :
    ∀ (es : List CapturedEntry) (r : Report),
      r.logfire_flows = r.total_flows →
      (es.foldl (processEntry decode ss false) r).logfire_flows =
        (es.foldl (processEntry decode ss false) r).total_flows := by
  intro es
  induction es with
  | nil => intro r h; exact h
  | cons e es ih =>
    intro r h
    exact ih _ (processEntry_allTraffic decode ss r e h)

/-- The aggregation fold emits the concatenation, in encounter order, of
each entry's matches. -/
theorem foldl_matches (decode : List Nat → String) (ss : String) (lo : Bool) :
    ∀ (es : List CapturedEntry) (r : Report),
      (es.foldl (processEntry decode ss lo) r).«matches» =
        r.«matches» ++ (es.map (entryMatches decode ss lo)).flatten := by
  intro es
  induction es with
  | nil => intro r; simp
  | cons e es ih =>
    intro r
    rw [List.foldl_cons, ih, processEntry_matches]
    simp

/-- The aggregation fold counts every HTTP entry of the capture. -/
theorem foldl_total (decode : List Nat → String) (ss : String) (lo : Bool) :
    ∀ (es : List CapturedEntry) (r : Report),
      (es.foldl (processEntry decode ss lo) r).total_flows =
        r.total_flows + es.countP isHttp := by
  intro es
  induction es with
  | nil => intro r; simp
  | cons e es ih =>
    intro r
    rw [List.foldl_cons, ih, processEntry_total, List.countP_cons]
    omega

/-- C8: every report produced by the aggregator satisfies
`scopedRecords ≤ totalRecords` and `found = (matches ≠ [])`, and with the
host filter disabled (`--all-traffic`, `logfire_only=False`) the scoped
count equals the total count. -/
theorem report_invariants (decode : List Nat → String) (ss : String)
    (lo : Bool) (es : List CapturedEntry) :
    (analyzeList decode ss lo es).logfire_flows ≤
      (analyzeList decode ss lo es).total_flows ∧
    ((analyzeList decode ss lo es).found = true ↔
      (analyzeList decode ss lo es).«matches» ≠ []) ∧
    (lo = false →
      (analyzeList decode ss lo es).logfire_flows =
        (analyzeList decode ss lo es).total_flows) := by
  have h := foldl_inv decode ss lo es initReport
    ⟨Nat.le_refl 0, by simp [initReport]⟩
  refine ⟨h.1, h.2, ?_⟩
  rintro rfl
  exact foldl_allTraffic decode ss es initReport rfl

/-- Witness for C8 on a concrete capture in all-traffic mode. -/
theorem report_invariants_witness :
    (analyzeList decodeX "raw" false entriesA).logfire_flows =
      (analyzeList decodeX "raw" false entriesA).total_flows ∧
    (analyzeList decodeX "raw" false entriesA).logfire_flows ≤
      (analyzeList decodeX "raw" false entriesA).total_flows :=
  ⟨(report_invariants decodeX "raw" false entriesA).2.2 rfl,
   (report_invariants decodeX "raw" false entriesA).1⟩

/-- C9: the aggregator never short-circuits — its match list is the
concatenation, in record-encounter order, of every record's own matches,
and the total count covers every HTTP record even after `found` becomes
true; within one record the request-side match precedes the response-side
match. -/
theorem aggregator_full_scan (decode : List Nat → String) (ss : String)
    (lo : Bool) (es : List CapturedEntry) :
    (analyzeList decode ss lo es).«matches» =
      (es.map (entryMatches decode ss lo)).flatten ∧
    (analyzeList decode ss lo es).total_flows = es.countP isHttp ∧
    (∀ f, matchedIn (requestText decode f) ss = true →
        matchedIn (responseText decode f) ss = true →
        (lo && !(pyIn (lowerStr "logfire") (lowerStr f.host))) = false →
        entryMatches decode ss lo (.http f) =
          [MatchEntry.request f.url f.method,
           MatchEntry.response f.url (f.response.map Resp.status)]) := by
  refine ⟨?_, ?_, ?_⟩
  · have h := foldl_matches decode ss lo es initReport
    simpa [analyzeList, initReport] using h
  · have h := foldl_total decode ss lo es initReport
    simpa [analyzeList, initReport] using h
  · intro f hreq hresp hfil
    unfold entryMatches
    simp [hfil, hreq, hresp]

/-- Witness for C9: a record matching on both sides (the empty marker
matches everywhere) contributes its request entry before its response
entry. -/
theorem aggregator_full_scan_witness :
    entryMatches decodeX "" false (.http flowA) =
      [MatchEntry.request flowA.url flowA.method,
       MatchEntry.response flowA.url (flowA.response.map Resp.status)] :=
  (aggregator_full_scan decodeX "" false []).2.2 flowA (by decide) (by decide)
    (by decide)

/-- Under `ExpectNotFound` the retry loop never stops early: with at least
one attempt left it always runs to the last attempt and keeps exactly that
attempt's result. -/
theorem pollGo_expectNotFound (polls : Nat → QueryResult) :
    ∀ (fuel i : Nat) (last : Option QueryResult),
      pollGo false polls i (fuel + 1) last =
        (some (polls (i + fuel)), i + fuel + 1) := by
  intro fuel
  induction fuel with
  | zero =>
    intro i last
    cases hf : (polls i).found <;> simp [pollGo, hf]
  | succ f ih =>
    intro i last
    rw [pollGo]
    have hbeq : ((f + 1 : Nat) == 0) = false := by simp
    simp only [Bool.false_and, Bool.false_eq_true, if_false, Bool.not_false,
      Bool.true_and, hbeq, Bool.and_false, ite_false]
    rw [ih (i + 1)]
    have h1 : i + 1 + f = i + (f + 1) := by omega
    rw [h1]

/-- Under `ExpectFound` the retry loop stops immediately after the first
attempt whose result is positive, issuing no further attempts. -/
theorem pollGo_expectFound_first (polls : Nat → QueryResult) :
    ∀ (fuel i : Nat) (last : Option QueryResult) (k : Nat),
      i ≤ k → k < i + fuel → (polls k).found = true →
      (∀ j, i ≤ j → j < k → (polls j).found = false) →
      pollGo true polls i fuel last = (some (polls k), k + 1) := by
  intro fuel
  induction fuel with
  | zero =>
    intro i last k h1 h2 _ _
    omega
  | succ f ih =>
    intro i last k h1 h2 h3 h4
    rw [pollGo]
    rcases Nat.eq_or_lt_of_le h1 with heq | hlt
    · subst heq
      simp [h3]
    · have hfi : (polls i).found = false := h4 i (Nat.le_refl i) hlt
      simp only [hfi, Bool.and_false, Bool.false_eq_true, if_false,
        Bool.not_true, Bool.false_and, ite_false]
      exact ih (i + 1) (some (polls i)) k hlt (by omega) h3
        (fun j hj1 hj2 => h4 j (by omega) hj2)

/-- Whatever the expectation, a loop with at least one attempt left ends
with the result of the poll it last issued, having issued between one and
`fuel + 1` polls beyond index `i`. -/
theorem pollGo_yields_last (ef : Bool) (polls : Nat → QueryResult) :
    ∀ (fuel i : Nat) (last : Option QueryResult),
      (pollGo ef polls i (fuel + 1) last).1 =
        some (polls ((pollGo ef polls i (fuel + 1) last).2 - 1)) ∧
      i + 1 ≤ (pollGo ef polls i (fuel + 1) last).2 ∧
      (pollGo ef polls i (fuel + 1) last).2 ≤ i + fuel + 1 := by
  intro fuel
  induction fuel with
  | zero =>
    intro i last
    rw [pollGo]
    by_cases hc1 : (ef && (polls i).found) = true
    · simp [hc1]
    · rw [Bool.not_eq_true] at hc1
      by_cases hc2 : (!ef && !(polls i).found) = true
      · simp [hc1, hc2, pollGo]
      · rw [Bool.not_eq_true] at hc2
        simp [hc1, hc2, pollGo]
  | succ f ih =>
    intro i last
    rw [pollGo]
    by_cases hc1 : (ef && (polls i).found) = true
    · simp [hc1]
    · rw [Bool.not_eq_true] at hc1
      have hbeq : ((f + 1 : Nat) == 0) = false := by simp
      simp only [hc1, Bool.false_eq_true, if_false, hbeq, Bool.and_false,
        ite_false]
      have h := ih (i + 1) (some (polls i))
      exact ⟨h.1, by have := h.2.1; omega, by have := h.2.2; omega⟩

/-- C3: retry semantics of the online validator.  Under `ExpectNotFound`
the loop never stops early and the evaluated result is exactly the last
attempt's (`n` attempts for `maxRetries = n ≥ 1`); under `ExpectFound` it
stops immediately after the first positive poll.  In particular the poll
sequence `[found, found, not-found]` under `ExpectNotFound` with
`maxRetries = 3` evaluates the final not-found result and passes with exit
code 0, and `[not-found, found, not-found]` under `ExpectFound` stops
after attempt 2 and passes with exit code 0 without issuing attempt 3. -/
theorem retry_loop_semantics :
    (∀ (n : Nat) (polls : Nat → QueryResult),
        pollLoopN false (n + 1) polls = (some (polls n), n + 1)) ∧
    (∀ (n : Nat) (polls : Nat → QueryResult) (k : Nat), k < n →
        (polls k).found = true → (∀ j, j < k → (polls j).found = false) →
        pollLoopN true n polls = (some (polls k), k + 1)) ∧
    (pollLoopN false 3 seqNF = (some (seqNF 2), 3) ∧
      (seqNF 2).found = false ∧
      validate_main (some "tok") false 3 seqNF = .exited 0) ∧
    (pollLoopN true 3 seqF = (some (seqF 1), 2) ∧
      validate_main (some "tok") true 3 seqF = .exited 0) := by
  refine ⟨?_, ?_, ⟨by decide, by decide, by decide⟩, ⟨by decide, by decide⟩⟩
  · intro n polls
    unfold pollLoopN
    rw [pollGo_expectNotFound polls n 0]
    simp
  · intro n polls k hk h1 h2
    unfold pollLoopN
    exact pollGo_expectFound_first polls n 0 none k (Nat.zero_le k)
      (by omega) h1 (fun j _ hj => h2 j hj)

/-- Witness for C3 on the spec's two poll sequences. -/
theorem retry_loop_semantics_witness :
    pollLoopN false 3 seqNF = (some (seqNF 2), 3) ∧
    pollLoopN true 3 seqF = (some (seqF 1), 2) := by
  refine ⟨retry_loop_semantics.1 2 seqNF,
          retry_loop_semantics.2.1 3 seqF 1 (by omega) (by decide) ?_⟩
  intro j hj
  have hj0 : j = 0 := by omega
  subst hj0
  decide

/-- C10: with a zero or negative retry count the poll loop issues no
attempts, `result` remains `None`, and reading `result["found"]` raises an
unhandled `TypeError` — neither a Pass nor a Fail verdict; with
`retry = n ≥ 1` the query function is invoked at least once and at most
`n` times, and the result read after the loop is the one produced by the
last poll actually issued. -/
theorem retry_bounds (ef : Bool) (retry : Int) (polls : Nat → QueryResult)
    (t : String) (ht : t ≠ "") :
    (retry ≤ 0 →
      (pollLoopN ef retry.toNat polls).2 = 0 ∧
      (pollLoopN ef retry.toNat polls).1 = none ∧
      validate_main (some t) ef retry polls = .raised "TypeError") ∧
    (1 ≤ retry →
      1 ≤ (pollLoopN ef retry.toNat polls).2 ∧
      (pollLoopN ef retry.toNat polls).2 ≤ retry.toNat ∧
      (pollLoopN ef retry.toNat polls).1 =
        some (polls ((pollLoopN ef retry.toNat polls).2 - 1))) := by
  constructor
  · intro hr
    have h0 : retry.toNat = 0 := by omega
    rw [h0]
    refine ⟨rfl, rfl, ?_⟩
    unfold validate_main
    simp only [ht, if_false, h0]
    rfl
  · intro hr
    obtain ⟨m, hm⟩ : ∃ m, retry.toNat = m + 1 :=
      ⟨retry.toNat - 1, by omega⟩
    rw [hm]
    unfold pollLoopN
    have h := pollGo_yields_last ef polls m 0 none
    exact ⟨by have := h.2.1; omega, by have := h.2.2; omega, h.1⟩

/-- Witness for C10 at retry counts 0 and 2. -/
theorem retry_bounds_witness :
    (pollLoopN true ((0 : Int)).toNat seqF).2 = 0 ∧
    validate_main (some "tok") true 0 seqF = .raised "TypeError" ∧
    1 ≤ (pollLoopN true ((2 : Int)).toNat seqF).2 ∧
    (pollLoopN true ((2 : Int)).toNat seqF).2 ≤ ((2 : Int)).toNat := by
  have h0 := (retry_bounds true 0 seqF "tok" (by decide)).1 (by omega)
  have h2 := (retry_bounds true 2 seqF "tok" (by decide)).2 (by omega)
  exact ⟨h0.1, h0.2.2, h2.1, h2.2.1⟩

end LogfireCensor
